import Mathlib

/-!
Verification of the ultra-mcp request-pipeline engine against its
natural-language specification.  The TypeScript source is shallowly
embedded: JavaScript numbers are modelled as rationals (`ℚ`), optional
fields as `Option`, JavaScript truthiness of numeric and string fields is
made explicit, and stateful database operations are modelled as pure
functions over explicit row lists.
-/

namespace UltraMCP

/-- Truthiness of an optional JavaScript number: `undefined` and `0` are falsy
(`NaN` has no counterpart in `ℚ`). Used to model `if (x.field && …)` guards. -/
def numTruthy : Option ℚ → Bool
  | none => false
  | some x => decide (x ≠ 0)

/-- Truthiness of an optional JavaScript string: `undefined` and `""` are falsy. -/
def strTruthy : Option String → Bool
  | none => false
  | some s => decide (s ≠ "")

/-- JavaScript `a.startsWith(b)`, on character sequences. -/
def jsStartsWith (s pre : String) : Bool :=
  pre.data.isPrefixOf s.data

/-- JavaScript `String.prototype.toLowerCase` (the model identifiers involved
are ASCII). -/
def jsToLower (s : String) : String :=
  ⟨s.data.map Char.toLower⟩

/-- Characters stripped by `String.prototype.trim` (the whitespace kinds that
occur in SSE payload lines). -/
def isTrimmedWhitespace (c : Char) : Bool :=
  c = ' ' || c = '\t' || c = '\n' || c = '\r'

/-- JavaScript `String.prototype.trim`. -/
def jsTrim (s : String) : String :=
  ⟨((s.data.dropWhile isTrimmedWhitespace).reverse.dropWhile isTrimmedWhitespace).reverse⟩

/-- The needle occurs as a contiguous subsequence of the haystack. -/
def containsSublist (needle : List Char) : List Char → Bool
  | [] => needle.isEmpty
  | c :: rest => needle.isPrefixOf (c :: rest) || containsSublist needle rest

/-- JavaScript `a.includes(b)` (substring containment). -/
def jsIncludes (s pat : String) : Bool :=
  containsSublist pat.data s.data

/-- JavaScript `s.split(sep)` for a one-character separator, on character
sequences. -/
def splitCharAux (sep : Char) : List Char → List (List Char)
  | [] => [[]]
  | c :: rest =>
      let r := splitCharAux sep rest
      if c = sep then [] :: r
      else
        match r with
        | [] => [[c]]
        | h :: t => (c :: h) :: t

def jsSplitChar (sep : Char) (s : String) : List String :=
  (splitCharAux sep s.data).map (fun l => ⟨l⟩)

/-! ## Pricing calculator (`src/pricing/calculator.ts` / `src/pricing/types.ts`)

`ModelPricing` keeps only the fields consumed by the cost-calculation path;
the capability/limit fields of the zod schema are never read by
`calculateCost` and are omitted. -/

structure ModelPricing where
  input_cost_per_token : ℚ
  output_cost_per_token : ℚ
  input_cost_per_token_above_200k_tokens : Option ℚ
  output_cost_per_token_above_200k_tokens : Option ℚ
deriving DecidableEq, Repr

/-- The LiteLLM catalog: `Record<string, ModelPricing>`, with the entry order
of `Object.entries`. -/
abbrev PricingData := List (String × ModelPricing)

structure SimplifiedPricing where
  model : String
  inputCostPerToken : ℚ
  outputCostPerToken : ℚ
  inputCostPerTokenAbove200k : Option ℚ
  outputCostPerTokenAbove200k : Option ℚ
deriving DecidableEq, Repr

structure CostCalculation where
  inputCost : ℚ
  outputCost : ℚ
  totalCost : ℚ
  inputTokens : ℚ
  outputTokens : ℚ
  model : String
  tieredPricingApplied : Bool
deriving DecidableEq, Repr

namespace PricingCalculator

/-- `PricingCalculator.TIERED_PRICING_THRESHOLD = 200_000`. -/
def TIERED_PRICING_THRESHOLD : ℚ := 200000

/-- The `normalizations` table of `normalizeModelName`, in object-literal
order (string keys of a JS object preserve insertion order). -/
def normalizations : List (String × String) :=
  [("gpt-5", "gpt-5"),
   ("o3", "o3"),
   ("gpt-4o", "gpt-4o"),
   ("gpt-4o-mini", "gpt-4o-mini"),
   ("gpt-4-turbo", "gpt-4-turbo"),
   ("gpt-4", "gpt-4"),
   ("gpt-3.5-turbo", "gpt-3.5-turbo"),
   ("gemini-2.5-pro", "gemini-2.5-pro"),
   ("gemini-2.0-flash", "gemini-2.0-flash"),
   ("gemini-2.0-flash-exp", "gemini-2.0-flash"),
   ("gemini-1.5-pro", "gemini-1.5-pro"),
   ("gemini-1.5-flash", "gemini-1.5-flash"),
   ("gemini-pro", "gemini-1.5-pro"),
   ("claude-3-5-sonnet", "claude-3.5-sonnet"),
   ("claude-3-5-sonnet-20241022", "claude-3.5-sonnet"),
   ("claude-3-opus", "claude-3-opus"),
   ("claude-3-sonnet", "claude-3-sonnet"),
   ("claude-3-haiku", "claude-3-haiku"),
   ("grok-4", "grok-4"),
   ("grok-3", "grok-3"),
   ("grok-2", "grok-2"),
   ("grok-1", "grok-1"),
   ("gpt-5-azure", "gpt-5"),
   ("o3-azure", "o3")]

/-- `PricingCalculator.normalizeModelName`: exact lookup of
`model.toLowerCase()` in the table (all values are non-empty strings, hence
truthy), then the first table entry whose key is contained in the lowered
model name, else the model unchanged. -/
def normalizeModelName (model : String) : String :=
  match normalizations.find? (fun p => p.1 = jsToLower model) with
  | some p => p.2
  | none =>
      match normalizations.find? (fun p => jsIncludes (jsToLower model) (jsToLower p.1)) with
      | some p => p.2
      | none => model

/-- `PricingCalculator.simplifyPricing` restricted to the cost fields
(the token-limit fields are never read by `calculateCost`). -/
def simplifyPricing (model : String) (pricing : ModelPricing) : SimplifiedPricing :=
  { model := model
    inputCostPerToken := pricing.input_cost_per_token
    outputCostPerToken := pricing.output_cost_per_token
    inputCostPerTokenAbove200k := pricing.input_cost_per_token_above_200k_tokens
    outputCostPerTokenAbove200k := pricing.output_cost_per_token_above_200k_tokens }

/-- `PricingCalculator.calculateCost`. The tiered branches are guarded by
`pricing.inputCostPerTokenAbove200k && inputTokens > THRESHOLD` (and the
output analogue); the first conjunct is a JavaScript truthiness test on the
optional rate. -/
def calculateCost (pricing : SimplifiedPricing) (inputTokens outputTokens : ℚ) :
    CostCalculation :=
  let tieredInput :=
    numTruthy pricing.inputCostPerTokenAbove200k
      && decide (inputTokens > TIERED_PRICING_THRESHOLD)
  let inputCost :=
    if tieredInput then
      TIERED_PRICING_THRESHOLD * pricing.inputCostPerToken
        + (inputTokens - TIERED_PRICING_THRESHOLD) * pricing.inputCostPerTokenAbove200k.getD 0
    else
      inputTokens * pricing.inputCostPerToken
  let tieredOutput :=
    numTruthy pricing.outputCostPerTokenAbove200k
      && decide (outputTokens > TIERED_PRICING_THRESHOLD)
  let outputCost :=
    if tieredOutput then
      TIERED_PRICING_THRESHOLD * pricing.outputCostPerToken
        + (outputTokens - TIERED_PRICING_THRESHOLD) * pricing.outputCostPerTokenAbove200k.getD 0
    else
      outputTokens * pricing.outputCostPerToken
  { inputCost := inputCost
    outputCost := outputCost
    totalCost := inputCost + outputCost
    inputTokens := inputTokens
    outputTokens := outputTokens
    model := pricing.model
    tieredPricingApplied := tieredInput || tieredOutput }

/-- `PricingCalculator.calculateCostFromPricing`. -/
def calculateCostFromPricing (model : String) (pricing : ModelPricing)
    (inputTokens outputTokens : ℚ) : CostCalculation :=
  calculateCost (simplifyPricing model pricing) inputTokens outputTokens

end PricingCalculator

/-! ## Pricing service lookup (`src/pricing/service.ts`) -/

namespace PricingService

/-- `PricingService.getModelPricing` with the catalog passed explicitly:
direct property access `pricingData[normalizedModel]` (exact key), then the
`Object.entries` loop with `key.toLowerCase() === normalizedModel.toLowerCase()`. -/
def getModelPricing (pricingData : PricingData) (model : String) : Option ModelPricing :=
  let normalizedModel := PricingCalculator.normalizeModelName model
  match pricingData.find? (fun p => p.1 = normalizedModel) with
  | some p => some p.2
  | none =>
      match pricingData.find? (fun p => jsToLower p.1 = jsToLower normalizedModel) with
      | some p => some p.2
      | none => none

/-- `PricingService.calculateCost`: when `getModelPricing` finds no entry the
method returns a default zero-cost calculation (the TypeScript return type is
`CostCalculation | null`, hence the `Option` codomain, but neither branch
returns `null`). -/
def calculateCost (pricingData : PricingData) (model : String)
    (inputTokens outputTokens : ℚ) : Option CostCalculation :=
  match getModelPricing pricingData model with
  | none =>
      some { inputCost := 0
             outputCost := 0
             totalCost := 0
             inputTokens := inputTokens
             outputTokens := outputTokens
             model := model
             tieredPricingApplied := false }
  | some pricing =>
      some (PricingCalculator.calculateCostFromPricing model pricing inputTokens outputTokens)

end PricingService

/-! ## Pricing fetcher (`src/pricing/fetcher.ts`)

`getLatestPricing` is modelled as a pure function of the ambient effects it
performs: the current clock, the parsed on-disk cache (`loadFromCache`
returns `null` for a missing or invalid file, modelled as `none`), and the
outcome of `fetchFromRemote`. -/

namespace PricingFetcher

structure CacheMetadata where
  timestamp : ℤ
  source : String
  ttl : ℤ
deriving DecidableEq, Repr

structure CacheFile where
  metadata : CacheMetadata
  data : PricingData

/-- `PricingFetcher.isCacheExpired`: age is measured against the fetcher's
own `ttl` field (not the one stored in the metadata). -/
def isCacheExpired (selfTtl : ℤ) (now : ℤ) (metadata : CacheMetadata) : Bool :=
  decide (now - metadata.timestamp > selfTtl)

/-- Observable outcome of one `getLatestPricing` call: the returned data or
the raised error, whether `saveToCache` ran, and whether the stale-cache
warning was logged. -/
structure PricingOutcome where
  result : Except String PricingData
  savedToCache : Bool
  warnedStaleCache : Bool

/-- `PricingFetcher.getLatestPricing`: fresh disk cache short-circuits unless
`forceRefresh`; otherwise the remote fetch is attempted, a success is saved
and returned, a failure falls back to any (stale) disk cache with a warning,
and raises only when no cache exists at all. -/
def getLatestPricing (selfTtl : ℤ) (now : ℤ) (forceRefresh : Bool)
    (diskCache : Option CacheFile) (remoteFetch : Except String PricingData) :
    PricingOutcome :=
  let freshCached : Option PricingData :=
    if forceRefresh then none
    else
      match diskCache with
      | some cached =>
          if isCacheExpired selfTtl now cached.metadata then none else some cached.data
      | none => none
  match freshCached with
  | some data => { result := Except.ok data, savedToCache := false, warnedStaleCache := false }
  | none =>
      match remoteFetch with
      | Except.ok freshData =>
          { result := Except.ok freshData, savedToCache := true, warnedStaleCache := false }
      | Except.error fetchError =>
          match diskCache with
          | some cached =>
              { result := Except.ok cached.data, savedToCache := false, warnedStaleCache := true }
          | none =>
              { result := Except.error
                  ("Failed to fetch pricing data and no cache available: " ++ fetchError)
                savedToCache := false
                warnedStaleCache := false }

end PricingFetcher

/-! ## OpenAI provider temperature handling (`src/providers/openai.ts`) -/

namespace OpenAIProvider

/-- The `enforcedTemperature` computation shared verbatim by
`OpenAIProvider.generateText` (line 52) and `OpenAIProvider.streamText`
(line 126): `(model === 'gpt-5' || model === 'o3') ? 1 : (request.temperature ?? 0.7)`. -/
def enforcedTemperature (model : String) (requestTemperature : Option ℚ) : ℚ :=
  if model = "gpt-5" || model = "o3" then 1 else requestTemperature.getD (7/10)

/-- Temperature sent upstream by `generateText`. -/
def generateTextTemperature (model : String) (requestTemperature : Option ℚ) : ℚ :=
  enforcedTemperature model requestTemperature

/-- Temperature sent upstream by `streamText`. -/
def streamTextTemperature (model : String) (requestTemperature : Option ℚ) : ℚ :=
  enforcedTemperature model requestTemperature

end OpenAIProvider

/-! ## DeepSeek R1 SSE streaming (`src/providers/deepseek-r1.ts`, `streamText`)

The async generator is modelled as a state machine folded over the list of
body reads. `JSON.parse` is the JavaScript built-in, so it is passed in as a
function `parse`; `parse s = none` models a `JSON.parse` exception on `s`,
and a `ParsedEvent` carries exactly the fields the loop body reads off the
parsed value. -/

namespace DeepSeekR1Provider

structure StreamUsage where
  promptTokens : ℚ
  completionTokens : ℚ
  totalTokens : ℚ
deriving DecidableEq, Repr

/-- Projections of a successfully parsed SSE payload:
`parsed.choices?.[0]?.delta?.content`, `parsed.usage` (token fields already
defaulted with `|| 0`), and `parsed.choices?.[0]?.finish_reason`. -/
structure ParsedEvent where
  deltaContent : Option String
  usage : Option StreamUsage
  finishReason : Option String
deriving DecidableEq, Repr

/-- The generator's local mutable state: `buffer`, `fullText`, `usage`,
`finishReason`, plus the list of chunks yielded so far (in yield order). -/
structure StreamState where
  buffer : String
  fullText : String
  usage : Option StreamUsage
  finishReason : String
  yielded : List String
deriving DecidableEq, Repr

def initialStreamState : StreamState :=
  { buffer := "", fullText := "", usage := none, finishReason := "stop", yielded := [] }

/-- One iteration of the `for (const line of lines)` body. The returned flag
is the `break` taken on `[DONE]`. Only lines starting with `data: ` are
payloads; the payload is `line.slice(6).trim()`; a failed parse is skipped
silently; a truthy content delta is appended to `fullText` and yielded; a
present `usage` and a truthy `finish_reason` overwrite the accumulators. -/
def processLine (parse : String → Option ParsedEvent) (st : StreamState)
    (line : String) : StreamState × Bool :=
  if jsStartsWith line "data: " then
    let data := jsTrim (line.drop 6)
    if data = "[DONE]" then (st, true)
    else
      match parse data with
      | none => (st, false)
      | some parsed =>
          let st1 :=
            if strTruthy parsed.deltaContent then
              let content := parsed.deltaContent.getD ""
              { st with fullText := st.fullText ++ content, yielded := st.yielded ++ [content] }
            else st
          let st2 :=
            match parsed.usage with
            | some u => { st1 with usage := some u }
            | none => st1
          let st3 :=
            if strTruthy parsed.finishReason then
              { st2 with finishReason := parsed.finishReason.getD "" }
            else st2
          (st3, false)
  else (st, false)

/-- The `for` loop over one batch of complete lines; `[DONE]` breaks out of
the batch. -/
def processLines (parse : String → Option ParsedEvent) :
    StreamState → List String → StreamState
  | st, [] => st
  | st, line :: rest =>
      let step := processLine parse st line
      if step.2 then step.1 else processLines parse step.1 rest

/-- One iteration of the `while (true)` read loop: decode appends to the
buffer, `split('\n')` produces the lines, `lines.pop() || ''` becomes the new
buffer (the split list is never empty), and the complete lines are processed. -/
def processRead (parse : String → Option ParsedEvent) (st : StreamState)
    (chunk : String) : StreamState :=
  let lines := jsSplitChar '\n' (st.buffer ++ chunk)
  let newBuffer := lines.getLast?.getD ""
  processLines parse { st with buffer := newBuffer } lines.dropLast

/-- The whole read loop on a body delivered as a list of reads. -/
def runStream (parse : String → Option ParsedEvent) (reads : List String) : StreamState :=
  reads.foldl (processRead parse) initialStreamState

/-- Modelled from the spec: the repository's `src/db/tracking` module is not
under `src/` (only its callers are). Spec §4.2: `complete` updates the record
to `success` carrying the response text, usage and finish reason; `fail`
updates it to `error`. -/
structure TrackingRecord where
  status : String
  responseText : Option String
  usage : Option StreamUsage
  finishReason : Option String
deriving DecidableEq, Repr

/-- Modelled from the spec: the `updateLLMCompletion` call on the clean
termination path of `streamText` (no error argument) closes the tracking
record as `success` with `responseData = { text: fullText }`, the last seen
usage and the last seen finish reason. -/
def streamCompletionRecord (parse : String → Option ParsedEvent)
    (reads : List String) : TrackingRecord :=
  let st := runStream parse reads
  { status := "success"
    responseText := some st.fullText
    usage := st.usage
    finishReason := some st.finishReason }

end DeepSeekR1Provider

/-! ## Conversation memory (`src/db/conversation-memory.ts`, `src/db/schema.ts`)

Tables are modelled as lists of rows; each manager method becomes a pure
function from table states to table states, translated from the drizzle
queries it issues. -/

namespace ConversationMemoryManager

/-- A `conversation_messages` row (fields the verified operations read). -/
structure MessageRow where
  sessionId : String
  messageIndex : ℤ
  role : String
  content : String
deriving DecidableEq, Repr

/-- Rows of one session, in table order (`where sessionId = …`). -/
def sessionMessages (db : List MessageRow) (sessionId : String) : List MessageRow :=
  db.filter (fun m => decide (m.sessionId = sessionId))

/-- The index selection of `addMessage`: `orderBy(desc(messageIndex)).limit(1)`
returns the row with the maximal `messageIndex` of the session, and the new
index is `(lastMessage[0]?.messageIndex ?? -1) + 1`. -/
def nextMessageIndex (db : List MessageRow) (sessionId : String) : ℤ :=
  (((sessionMessages db sessionId).map (fun m => m.messageIndex)).maximum.unbot' (-1)) + 1

/-- `ConversationMemoryManager.addMessage` restricted to the
`conversation_messages` table (the session-timestamp update touches only the
`sessions` table). -/
def addMessage (db : List MessageRow) (sessionId role content : String) :
    List MessageRow :=
  db ++ [{ sessionId := sessionId
           messageIndex := nextMessageIndex db sessionId
           role := role
           content := content }]

/-- A sequence of `addMessage` calls on one session. -/
def addMessages (db : List MessageRow) (sessionId : String) (contents : List String) :
    List MessageRow :=
  contents.foldl (fun d c => addMessage d sessionId "user" c) db

/-- A `conversation_files` row (fields the verified operations read);
`id` stands for the generated UUID primary key. -/
structure FileRow where
  id : ℕ
  sessionId : String
  filePath : String
  fileContent : String
  contentHash : String
  lastAccessedAt : ℤ
  accessCount : ℤ
  isRelevant : Bool
deriving DecidableEq, Repr

/-- `ConversationMemoryManager.addFiles`. `hash` is the SHA-256 digest
(external `crypto` primitive, passed in), `now` the transaction clock,
`freshId` the first generated id for inserted rows. Mirrors the batched
source: hash all contents, select the session's rows whose hash occurs in
the batch, build the last-wins hash map, split the batch into inserts (with
`accessCount` and `lastAccessedAt` taking their schema defaults `0` / `now`)
and updates (`accessCount := existing.accessCount + 1`,
`lastAccessedAt := now`), then apply inserts and updates. -/
def addFiles (hash : String → String) (now : ℤ) (freshId : ℕ)
    (db : List FileRow) (sessionId : String) (files : List (String × String)) :
    List FileRow :=
  let fileData := files.map (fun f => (f.1, f.2, hash f.2))
  let contentHashes := fileData.map (fun f => f.2.2)
  let existingFiles := db.filter
    (fun r => decide (r.sessionId = sessionId) && contentHashes.contains r.contentHash)
  let lookup : String → Option FileRow := fun h =>
    existingFiles.reverse.find? (fun r => r.contentHash = h)
  let filesToUpdate : List (ℕ × ℤ) :=
    fileData.filterMap (fun f => (lookup f.2.2).map (fun e => (e.id, e.accessCount + 1)))
  let newFiles := fileData.filter (fun f => (lookup f.2.2).isNone)
  let filesToInsert : List FileRow :=
    ((List.range newFiles.length).zip newFiles).map (fun p =>
      { id := freshId + p.1
        sessionId := sessionId
        filePath := p.2.1
        fileContent := p.2.2.1
        contentHash := p.2.2.2
        lastAccessedAt := now
        accessCount := 0
        isRelevant := true })
  let afterInsert := db ++ filesToInsert
  filesToUpdate.foldl
    (fun d u => d.map (fun r =>
      if r.id = u.1 then { r with lastAccessedAt := now, accessCount := u.2 } else r))
    afterInsert

/-- The session's rows for one content hash. -/
def rowsForHash (db : List FileRow) (sessionId h : String) : List FileRow :=
  db.filter (fun r => decide (r.sessionId = sessionId) && decide (r.contentHash = h))

/-- `pruneMessages` walks from the most recent message backwards,
`unshift`ing each message that still fits, and stops at the first one that
does not; the argument list here is already reversed (newest first). -/
def pruneMessagesAux (countTokens : String → ℕ) (maxTokens : ℕ) :
    List MessageRow → ℕ → List MessageRow
  | [], _ => []
  | m :: rest, total =>
      let tokens := countTokens m.content
      if total + tokens > maxTokens then []
      else pruneMessagesAux countTokens maxTokens rest (total + tokens) ++ [m]

def pruneMessages (countTokens : String → ℕ) (messages : List MessageRow)
    (maxTokens : ℕ) : List MessageRow :=
  pruneMessagesAux countTokens maxTokens messages.reverse 0

/-- `pruneFiles` walks the files (already in `lastAccessedAt DESC` order)
and admits until the first one that does not fit. `file.content ||
file.fileContent || ''` collapses to the stored content in this model. -/
def pruneFilesAux (countTokens : String → ℕ) (maxTokens : ℕ) :
    List FileRow → ℕ → List FileRow
  | [], _ => []
  | f :: rest, total =>
      let tokens := countTokens f.fileContent
      if total + tokens > maxTokens then []
      else f :: pruneFilesAux countTokens maxTokens rest (total + tokens)

def pruneFiles (countTokens : String → ℕ) (files : List FileRow)
    (maxTokens : ℕ) : List FileRow :=
  pruneFilesAux countTokens maxTokens files 0

structure ConversationContext where
  messages : List MessageRow
  files : List FileRow
  totalTokens : ℕ
deriving DecidableEq, Repr

/-- `ConversationMemoryManager.getConversationContext`. `messages` and
`files` stand for the results of the two selects (the session's messages
ordered by index, and its relevant files ordered by `lastAccessedAt DESC`);
the tiktoken counters of `TokenizerManager` are external and passed in.
The pruning guard is `if (maxTokens && totalTokens > maxTokens)`, a
JavaScript truthiness test in which `maxTokens = 0` is falsy; the budget
splits `Math.floor(maxTokens * 0.7)` / `Math.floor(maxTokens * 0.3)` are
taken as integer floors. -/
def getConversationContext (countMessageTokens : List MessageRow → ℕ)
    (countTokens : String → ℕ) (messages : List MessageRow)
    (files : List FileRow) (maxTokens : Option ℕ) (includeFiles : Bool) :
    ConversationContext :=
  let files := if includeFiles then files else []
  let messageTokens := countMessageTokens messages
  let fileTokens := files.foldl (fun s f => s + countTokens f.fileContent) 0
  let totalTokens := messageTokens + fileTokens
  let prune :=
    match maxTokens with
    | none => false
    | some mt => decide (mt ≠ 0) && decide (totalTokens > mt)
  if prune then
    let mt := maxTokens.getD 0
    { messages := pruneMessages countTokens messages (mt * 7 / 10)
      files := pruneFiles countTokens files (mt * 3 / 10)
      totalTokens := mt }
  else
    { messages := messages, files := files, totalTokens := totalTokens }

/-- A `conversation_budgets` row (at most one per session). -/
structure BudgetRow where
  maxTokens : Option ℤ
  maxCostUsd : Option ℚ
  maxDurationMs : Option ℤ
  usedTokens : ℤ
  usedCostUsd : ℚ
  usedDurationMs : ℤ
deriving DecidableEq, Repr

structure BudgetCheck where
  withinLimits : Bool
  tokenLimitExceeded : Bool
  costLimitExceeded : Bool
  durationLimitExceeded : Bool
deriving DecidableEq, Repr

/-- `ConversationMemoryManager.checkBudgetLimits` with the session's (at most
one) budget row passed explicitly; each flag is
`b.maxX !== null && b.usedX >= b.maxX`. -/
def checkBudgetLimits (budget : Option BudgetRow) : BudgetCheck :=
  match budget with
  | none =>
      { withinLimits := true
        tokenLimitExceeded := false
        costLimitExceeded := false
        durationLimitExceeded := false }
  | some b =>
      let tokenLimitExceeded :=
        match b.maxTokens with | none => false | some m => decide (b.usedTokens ≥ m)
      let costLimitExceeded :=
        match b.maxCostUsd with | none => false | some m => decide (b.usedCostUsd ≥ m)
      let durationLimitExceeded :=
        match b.maxDurationMs with | none => false | some m => decide (b.usedDurationMs ≥ m)
      { withinLimits := !tokenLimitExceeded && !costLimitExceeded && !durationLimitExceeded
        tokenLimitExceeded := tokenLimitExceeded
        costLimitExceeded := costLimitExceeded
        durationLimitExceeded := durationLimitExceeded }

end ConversationMemoryManager

/-! ## Spec-side predicates and concrete fixtures -/

/-- Spec-side reading of "the entry carries a (nonzero) above-200k rate". -/
def hasNonzeroAboveRate (rate : Option ℚ) : Prop :=
  ∃ x, rate = some x ∧ x ≠ 0

instance (rate : Option ℚ) : Decidable (hasNonzeroAboveRate rate) := by
  unfold hasNonzeroAboveRate
  cases rate with
  | none => exact Decidable.isFalse (by simp)
  | some x => exact decidable_of_iff (x ≠ 0) (by simp)

/-- A pricing entry whose above-200k input rate is present but zero. -/
def zeroAboveRateEntry : SimplifiedPricing :=
  { model := "zero-above"
    inputCostPerToken := 1
    outputCostPerToken := 1
    inputCostPerTokenAbove200k := some 0
    outputCostPerTokenAbove200k := none }

/-- Gemini 1.5 Pro rates from the spec's tiered end-to-end scenario. -/
def geminiTieredEntry : SimplifiedPricing :=
  { model := "gemini-1.5-pro"
    inputCostPerToken := 35/10000000
    outputCostPerToken := 105/10000000
    inputCostPerTokenAbove200k := some (7/1000000)
    outputCostPerTokenAbove200k := some (21/1000000) }

/-- A flat-rate catalog entry used by the lookup fixtures. -/
def flatEntry : ModelPricing :=
  { input_cost_per_token := 1/1000000
    output_cost_per_token := 2/1000000
    input_cost_per_token_above_200k_tokens := none
    output_cost_per_token_above_200k_tokens := none }

/-- A disk cache file for the fetcher fixtures. -/
def sampleCache : PricingFetcher.CacheFile :=
  { metadata := { timestamp := 0, source := "litellm", ttl := 3600000 }
    data := [("gpt-4o", flatEntry)] }

/-- The first SSE payload of the spec's streaming scenario. -/
def jsonHe : String :=
  "\x7b\"choices\":[\x7b\"delta\":\x7b\"content\":\"He\"\x7d\x7d]\x7d"

/-- The second SSE payload of the spec's streaming scenario. -/
def jsonLlo : String :=
  "\x7b\"choices\":[\x7b\"delta\":\x7b\"content\":\"llo\"\x7d\x7d]\x7d"

/-- The spec's streaming scenario delivered as one body read. -/
def exampleBody : String :=
  "data: " ++ jsonHe ++ "\n" ++ "data: " ++ jsonLlo ++ "\n" ++ "data: [DONE]" ++ "\n"

/-- A concrete stand-in for `JSON.parse` agreeing with JavaScript on the two
scenario payloads and failing elsewhere. -/
def exampleParse : String → Option DeepSeekR1Provider.ParsedEvent := fun s =>
  if s = jsonHe then
    some { deltaContent := some "He", usage := none, finishReason := none }
  else if s = jsonLlo then
    some { deltaContent := some "llo", usage := none, finishReason := none }
  else none

/-- A stored message for the context fixtures. -/
def sampleMessage : ConversationMemoryManager.MessageRow :=
  { sessionId := "s", messageIndex := 0, role := "user", content := "hi" }

/-! # Theorems -/

section Budget

open ConversationMemoryManager

/-- C10: `checkBudgetLimits` treats reaching a limit exactly as exceeding
it: with a budget row each exceeded flag is true iff the corresponding max
is set and the used counter is greater than or equal to it (so
`usedTokens = maxTokens` already reports `tokenLimitExceeded = true`),
`withinLimits` is the conjunction of the three negated flags, and with no
budget row all three flags are false and `withinLimits` is true. -/
theorem checkBudgetLimits_spec :
    (∀ b : BudgetRow,
      ((checkBudgetLimits (some b)).tokenLimitExceeded = true ↔
        ∃ m, b.maxTokens = some m ∧ b.usedTokens ≥ m) ∧
      ((checkBudgetLimits (some b)).costLimitExceeded = true ↔
        ∃ m, b.maxCostUsd = some m ∧ b.usedCostUsd ≥ m) ∧
      ((checkBudgetLimits (some b)).durationLimitExceeded = true ↔
        ∃ m, b.maxDurationMs = some m ∧ b.usedDurationMs ≥ m) ∧
      ((checkBudgetLimits (some b)).withinLimits = true ↔
        (checkBudgetLimits (some b)).tokenLimitExceeded = false ∧
        (checkBudgetLimits (some b)).costLimitExceeded = false ∧
        (checkBudgetLimits (some b)).durationLimitExceeded = false) ∧
      (∀ m, b.maxTokens = some m → b.usedTokens = m →
        (checkBudgetLimits (some b)).tokenLimitExceeded = true)) ∧
    checkBudgetLimits none =
      { withinLimits := true
        tokenLimitExceeded := false
        costLimitExceeded := false
        durationLimitExceeded := false } := by
  refine ⟨fun b => ?_, rfl⟩
  obtain ⟨mt, mc, md, ut, uc, ud⟩ := b
  refine ⟨?_, ?_, ?_, ?_, ?_⟩
  · cases mt <;> simp [checkBudgetLimits]
  · cases mc <;> simp [checkBudgetLimits]
  · cases md <;> simp [checkBudgetLimits]
  · cases mt <;> cases mc <;> cases md <;> simp [checkBudgetLimits, and_assoc]
  · intro m hm hu
    dsimp only at hm hu
    subst hm
    subst hu
    simp [checkBudgetLimits]

/-- Witness for C10 at a concrete budget: a session that used exactly its
100-token budget is reported as over the token limit. -/
theorem checkBudgetLimits_spec_witness :
    (checkBudgetLimits (some
      { maxTokens := some 100
        maxCostUsd := none
        maxDurationMs := none
        usedTokens := 100
        usedCostUsd := 0
        usedDurationMs := 0 })).tokenLimitExceeded = true :=
  (checkBudgetLimits_spec.1
    { maxTokens := some 100
      maxCostUsd := none
      maxDurationMs := none
      usedTokens := 100
      usedCostUsd := 0
      usedDurationMs := 0 }).2.2.2.2 100 rfl rfl

end Budget

section Temperature

open OpenAIProvider

/-- C5 is false as stated: `o1` begins with the reasoning prefix `o1`, yet
both adapter paths send the request temperature (0.2) instead of 1.0 — the
code compares the model for equality with `gpt-5`/`o3` only. -/
theorem enforcedTemperature_counterexample :
    jsStartsWith "o1" "o1" = true ∧
    generateTextTemperature "o1" (some (1/5)) = 1/5 ∧
    streamTextTemperature "o1" (some (1/5)) = 1/5 ∧
    (1/5 : ℚ) ≠ 1 := by
  refine ⟨by decide, rfl, rfl, by norm_num⟩

/-- C5 (amended): in both `generateText` and `streamText` the upstream
temperature is 1.0 exactly when the model identifier is the exact string
`gpt-5` or the exact string `o3`; every other identifier — including other
`o1…`/`o3…`/`gpt-5…`-prefixed ones — gets the request temperature,
defaulting to 0.7 when absent. -/
theorem enforcedTemperature_spec (model : String) (t : Option ℚ) :
    (model = "gpt-5" ∨ model = "o3" →
      generateTextTemperature model t = 1 ∧ streamTextTemperature model t = 1) ∧
    (¬(model = "gpt-5" ∨ model = "o3") →
      generateTextTemperature model t = t.getD (7/10) ∧
      streamTextTemperature model t = t.getD (7/10)) := by
  unfold generateTextTemperature streamTextTemperature enforcedTemperature
  constructor
  · intro h
    rcases h with h | h <;> subst h <;> simp
  · intro h
    rw [not_or] at h
    simp [h.1, h.2]

/-- Witness for C5 (amended) at concrete models. -/
theorem enforcedTemperature_spec_witness :
    generateTextTemperature "o1" (some (3/10)) = (some ((3:ℚ)/10)).getD (7/10) ∧
    generateTextTemperature "gpt-5" (some (3/10)) = 1 :=
  ⟨((enforcedTemperature_spec "o1" (some (3/10))).2 (by simp)).1,
   ((enforcedTemperature_spec "gpt-5" (some (3/10))).1 (Or.inl rfl)).1⟩

end Temperature

section UnknownModelCost

/-- C7 is false as stated: with an empty catalog every model is unknown, yet
`PricingService.calculateCost` returns a zero-cost calculation object, not
`null`. -/
theorem serviceCalculateCost_counterexample :
    PricingService.getModelPricing [] "zz-unknown-model" = none ∧
    PricingService.calculateCost [] "zz-unknown-model" 1000 500 ≠ none := by
  refine ⟨by decide, by decide⟩

/-- C7 (amended): for every model unknown to the catalog,
`PricingService.calculateCost` returns the default zero-cost calculation
(`inputCost = outputCost = totalCost = 0`, `tieredPricingApplied = false`)
rather than `nil`. -/
theorem serviceCalculateCost_unknown_spec (pricingData : PricingData)
    (model : String) (i o : ℚ)
    (h : PricingService.getModelPricing pricingData model = none) :
    PricingService.calculateCost pricingData model i o =
      some { inputCost := 0
             outputCost := 0
             totalCost := 0
             inputTokens := i
             outputTokens := o
             model := model
             tieredPricingApplied := false } := by
  unfold PricingService.calculateCost
  rw [h]

/-- Witness for C7 (amended) at a concrete unknown model. -/
theorem serviceCalculateCost_unknown_spec_witness :
    PricingService.calculateCost [] "zz-unknown-model" 1000 500 =
      some { inputCost := 0
             outputCost := 0
             totalCost := 0
             inputTokens := 1000
             outputTokens := 500
             model := "zz-unknown-model"
             tieredPricingApplied := false } :=
  serviceCalculateCost_unknown_spec [] "zz-unknown-model" 1000 500 (by decide)

end UnknownModelCost

section ContextZero

open ConversationMemoryManager

/-- C8 is false as stated: `maxTokens = 0` is falsy in the pruning guard
`if (maxTokens && totalTokens > maxTokens)`, so the stored message survives
(`messages` is not empty). -/
theorem getConversationContext_zero_counterexample :
    (getConversationContext
        (fun ms => ms.foldl (fun s m => s + m.content.length) 0)
        (fun s => s.length) [sampleMessage] [] (some 0) true).messages =
      [sampleMessage] ∧
    [sampleMessage] ≠ ([] : List MessageRow) := by
  exact ⟨rfl, by decide⟩

/-- C8 (amended): a `maxTokens` of 0 is falsy in the guard
`if (maxTokens && totalTokens > maxTokens)`, so a zero budget disables
pruning: `getConversationContext` returns every stored message and file
unchanged. -/
theorem getConversationContext_zero_spec
    (countMessageTokens : List MessageRow → ℕ) (countTokens : String → ℕ)
    (messages : List MessageRow) (files : List FileRow) :
    (getConversationContext countMessageTokens countTokens messages files
        (some 0) true).messages = messages ∧
    (getConversationContext countMessageTokens countTokens messages files
        (some 0) true).files = files := by
  simp [getConversationContext]

end ContextZero

section Fetcher

open PricingFetcher

/-- C4: `getLatestPricing` follows exactly the specified algorithm: not
forced with a within-TTL disk cache returns the cached data independently of
the remote fetch; otherwise a successful fetch is saved and returned; a
failed fetch with any (stale) disk cache warns and returns the stale data
without raising; a failed fetch with no disk cache raises. -/
theorem getLatestPricing_spec (ttl now : ℤ) (force : Bool)
    (disk : Option CacheFile) (remote : Except String PricingData) :
    (∀ c, disk = some c → force = false →
      isCacheExpired ttl now c.metadata = false →
      ∀ remoteAny, getLatestPricing ttl now force disk remoteAny =
        { result := Except.ok c.data, savedToCache := false, warnedStaleCache := false }) ∧
    (∀ data, remote = Except.ok data →
      (force = true ∨ disk = none ∨
        ∃ c, disk = some c ∧ isCacheExpired ttl now c.metadata = true) →
      getLatestPricing ttl now force disk remote =
        { result := Except.ok data, savedToCache := true, warnedStaleCache := false }) ∧
    (∀ err c, remote = Except.error err → disk = some c →
      (force = true ∨ isCacheExpired ttl now c.metadata = true) →
      getLatestPricing ttl now force disk remote =
        { result := Except.ok c.data, savedToCache := false, warnedStaleCache := true }) ∧
    (∀ err, remote = Except.error err → disk = none →
      ∃ msg, getLatestPricing ttl now force disk remote =
        { result := Except.error msg, savedToCache := false, warnedStaleCache := false }) := by
  refine ⟨?_, ?_, ?_, ?_⟩
  · rintro c rfl rfl hfresh remoteAny
    simp [getLatestPricing, hfresh]
  · rintro data rfl (hf | hd | ⟨c, hd, hexp⟩)
    · subst hf
      simp [getLatestPricing]
    · subst hd
      cases force <;> simp [getLatestPricing]
    · subst hd
      cases force <;> simp [getLatestPricing, hexp]
  · rintro err c rfl rfl (hf | hexp)
    · subst hf
      simp [getLatestPricing]
    · cases force <;> simp [getLatestPricing, hexp]
  · rintro err rfl rfl
    refine ⟨"Failed to fetch pricing data and no cache available: " ++ err, ?_⟩
    cases force <;> simp [getLatestPricing]

/-- Witness for C4 at concrete states: a 2-hour-old cache with a 1-hour TTL
and a refused connection yields the stale data with a warning; a 1000-second
old cache is simply returned. -/
theorem getLatestPricing_spec_witness :
    getLatestPricing 3600000 7200000 false (some sampleCache)
        (Except.error "connection refused") =
      { result := Except.ok sampleCache.data
        savedToCache := false
        warnedStaleCache := true } ∧
    getLatestPricing 3600000 1000000 false (some sampleCache)
        (Except.error "connection refused") =
      { result := Except.ok sampleCache.data
        savedToCache := false
        warnedStaleCache := false } := by
  constructor
  · exact (getLatestPricing_spec 3600000 7200000 false (some sampleCache)
      (Except.error "connection refused")).2.2.1 "connection refused" sampleCache
      rfl rfl (Or.inr (by decide))
  · exact (getLatestPricing_spec 3600000 1000000 false (some sampleCache)
      (Except.error "connection refused")).1 sampleCache rfl rfl (by decide)
      (Except.error "connection refused")

end Fetcher

section Calculator

open PricingCalculator

/-- The truthiness guard on an optional rate holds iff the rate is present
and nonzero. -/
theorem numTruthy_iff (r : Option ℚ) :
    numTruthy r = true ↔ hasNonzeroAboveRate r := by
  cases r <;> simp [numTruthy, hasNonzeroAboveRate]

/-- C1 is false as stated: this entry carries an above-200k input rate
(it is present, equal to 0), the input count 200001 exceeds the threshold,
yet the flat branch fires: `inputCost` is `200001 × base`, not
`200000 × base + 1 × above`, and `tieredPricingApplied` is false — the guard
is a JS truthiness test, so a present-but-zero rate is ignored. -/
theorem calculateCost_counterexample :
    zeroAboveRateEntry.inputCostPerTokenAbove200k.isSome = true ∧
    (200001 : ℚ) > 200000 ∧
    (calculateCost zeroAboveRateEntry 200001 0).inputCost = 200001 ∧
    (calculateCost zeroAboveRateEntry 200001 0).inputCost ≠
      200000 * zeroAboveRateEntry.inputCostPerToken +
        (200001 - 200000) * zeroAboveRateEntry.inputCostPerTokenAbove200k.getD 0 ∧
    (calculateCost zeroAboveRateEntry 200001 0).tieredPricingApplied = false := by
  refine ⟨rfl, by norm_num, ?_, ?_, ?_⟩ <;>
    norm_num [calculateCost, zeroAboveRateEntry, numTruthy, TIERED_PRICING_THRESHOLD]

/-- C1 (amended): `calculateCost` always returns
`totalCost = inputCost + outputCost`; the tiered input branch fires iff the
entry carries a *nonzero* above-200k input rate (the guard is a JavaScript
truthiness test, so a present-but-zero rate takes the flat branch) and the
input count strictly exceeds 200000, in which case
`inputCost = 200000·base + (count − 200000)·above`, otherwise
`inputCost = count·base`; symmetrically for output; at exactly 200000 tokens
only the base rate is used; and `tieredPricingApplied` is true iff at least
one tiered branch fired. -/
theorem calculateCost_spec (p : SimplifiedPricing) (i o : ℚ) :
    (calculateCost p i o).totalCost =
      (calculateCost p i o).inputCost + (calculateCost p i o).outputCost ∧
    (hasNonzeroAboveRate p.inputCostPerTokenAbove200k ∧ i > 200000 →
      (calculateCost p i o).inputCost =
        200000 * p.inputCostPerToken +
          (i - 200000) * p.inputCostPerTokenAbove200k.getD 0) ∧
    (¬(hasNonzeroAboveRate p.inputCostPerTokenAbove200k ∧ i > 200000) →
      (calculateCost p i o).inputCost = i * p.inputCostPerToken) ∧
    (hasNonzeroAboveRate p.outputCostPerTokenAbove200k ∧ o > 200000 →
      (calculateCost p i o).outputCost =
        200000 * p.outputCostPerToken +
          (o - 200000) * p.outputCostPerTokenAbove200k.getD 0) ∧
    (¬(hasNonzeroAboveRate p.outputCostPerTokenAbove200k ∧ o > 200000) →
      (calculateCost p i o).outputCost = o * p.outputCostPerToken) ∧
    (i = 200000 → (calculateCost p i o).inputCost = i * p.inputCostPerToken) ∧
    (o = 200000 → (calculateCost p i o).outputCost = o * p.outputCostPerToken) ∧
    ((calculateCost p i o).tieredPricingApplied = true ↔
      (hasNonzeroAboveRate p.inputCostPerTokenAbove200k ∧ i > 200000) ∨
      (hasNonzeroAboveRate p.outputCostPerTokenAbove200k ∧ o > 200000)) := by
  have tieredIn : hasNonzeroAboveRate p.inputCostPerTokenAbove200k ∧ i > 200000 →
      (calculateCost p i o).inputCost =
        200000 * p.inputCostPerToken +
          (i - 200000) * p.inputCostPerTokenAbove200k.getD 0 := by
    intro h
    have hb : numTruthy p.inputCostPerTokenAbove200k = true := (numTruthy_iff _).mpr h.1
    have hd : decide (i > TIERED_PRICING_THRESHOLD) = true := by
      simpa [TIERED_PRICING_THRESHOLD] using h.2
    simp only [calculateCost, hb, hd, Bool.true_and, if_true]
    simp [TIERED_PRICING_THRESHOLD]
  have flatIn : ¬(hasNonzeroAboveRate p.inputCostPerTokenAbove200k ∧ i > 200000) →
      (calculateCost p i o).inputCost = i * p.inputCostPerToken := by
    intro h
    cases hb : numTruthy p.inputCostPerTokenAbove200k with
    | false => simp [calculateCost, hb]
    | true =>
        have hni : ¬ i > 200000 := fun hi => h ⟨(numTruthy_iff _).mp hb, hi⟩
        have hd : decide (i > TIERED_PRICING_THRESHOLD) = false := by
          simpa [TIERED_PRICING_THRESHOLD] using hni
        simp [calculateCost, hb, hd]
  have tieredOut : hasNonzeroAboveRate p.outputCostPerTokenAbove200k ∧ o > 200000 →
      (calculateCost p i o).outputCost =
        200000 * p.outputCostPerToken +
          (o - 200000) * p.outputCostPerTokenAbove200k.getD 0 := by
    intro h
    have hb : numTruthy p.outputCostPerTokenAbove200k = true := (numTruthy_iff _).mpr h.1
    have hd : decide (o > TIERED_PRICING_THRESHOLD) = true := by
      simpa [TIERED_PRICING_THRESHOLD] using h.2
    simp only [calculateCost, hb, hd, Bool.true_and, if_true]
    simp [TIERED_PRICING_THRESHOLD]
  have flatOut : ¬(hasNonzeroAboveRate p.outputCostPerTokenAbove200k ∧ o > 200000) →
      (calculateCost p i o).outputCost = o * p.outputCostPerToken := by
    intro h
    cases hb : numTruthy p.outputCostPerTokenAbove200k with
    | false => simp [calculateCost, hb]
    | true =>
        have hno : ¬ o > 200000 := fun ho => h ⟨(numTruthy_iff _).mp hb, ho⟩
        have hd : decide (o > TIERED_PRICING_THRESHOLD) = false := by
          simpa [TIERED_PRICING_THRESHOLD] using hno
        simp [calculateCost, hb, hd]
  refine ⟨rfl, tieredIn, flatIn, tieredOut, flatOut, ?_, ?_, ?_⟩
  · intro hi
    exact flatIn (by rintro ⟨-, hgt⟩; subst hi; exact lt_irrefl _ hgt)
  · intro ho
    exact flatOut (by rintro ⟨-, hgt⟩; subst ho; exact lt_irrefl _ hgt)
  · simp [calculateCost, Bool.or_eq_true, Bool.and_eq_true, numTruthy_iff,
      decide_eq_true_eq, TIERED_PRICING_THRESHOLD]

/-- Witness for C1 (amended): the spec's tiered end-to-end scenario,
`calculateCost("gemini-1.5-pro", 250000, 10000)` with the Gemini rates:
input 1.05, output 0.105, total 1.155, tiered applied. -/
theorem calculateCost_spec_witness :
    (calculateCost geminiTieredEntry 250000 10000).inputCost = 21/20 ∧
    (calculateCost geminiTieredEntry 250000 10000).outputCost = 21/200 ∧
    (calculateCost geminiTieredEntry 250000 10000).totalCost = 231/200 ∧
    (calculateCost geminiTieredEntry 250000 10000).tieredPricingApplied = true := by
  obtain ⟨htot, hti, -, -, hfo, -, -, happ⟩ :=
    calculateCost_spec geminiTieredEntry 250000 10000
  have hin : (calculateCost geminiTieredEntry 250000 10000).inputCost = 21/20 := by
    rw [hti ⟨⟨7/1000000, rfl, by norm_num⟩, by norm_num⟩]
    norm_num [geminiTieredEntry]
  have hout : (calculateCost geminiTieredEntry 250000 10000).outputCost = 21/200 := by
    rw [hfo (by rintro ⟨-, hgt⟩; norm_num at hgt)]
    norm_num [geminiTieredEntry]
  refine ⟨hin, hout, ?_, ?_⟩
  · rw [htot, hin, hout]
    norm_num
  · exact happ.mpr (Or.inl ⟨⟨7/1000000, rfl, by norm_num⟩, by norm_num⟩)

end Calculator

section Lookup

/-- C6 is false as stated: `zzz-model` normalizes to itself, the catalog key
`openai/zzz-model` contains it as a substring (differing only by surrounding
text), yet the lookup misses — the fallback compares keys for
case-insensitive equality, not substring inclusion. -/
theorem getModelPricing_counterexample :
    PricingCalculator.normalizeModelName "zzz-model" = "zzz-model" ∧
    jsIncludes "openai/zzz-model" "zzz-model" = true ∧
    PricingService.getModelPricing [("openai/zzz-model", flatEntry)] "zzz-model" = none := by
  refine ⟨by decide, by decide, by decide⟩

/-- C6 (amended): `getModelPricing` tries the exact normalized name first
and then falls back to case-insensitive *equality* against the catalog keys:
a key differing from the normalized name only in letter case is still found,
but when no key is case-insensitively equal the lookup returns nothing (a
key merely containing the normalized name is not matched). -/
theorem getModelPricing_spec (pricingData : PricingData) (model : String) :
    (∀ p, pricingData.find?
        (fun e => e.1 = PricingCalculator.normalizeModelName model) = some p →
      PricingService.getModelPricing pricingData model = some p.2) ∧
    (pricingData.find?
        (fun e => e.1 = PricingCalculator.normalizeModelName model) = none →
      ∀ p, pricingData.find?
          (fun e => jsToLower e.1 =
            jsToLower (PricingCalculator.normalizeModelName model)) = some p →
        PricingService.getModelPricing pricingData model = some p.2) ∧
    ((∀ e ∈ pricingData,
        jsToLower e.1 ≠ jsToLower (PricingCalculator.normalizeModelName model)) →
      PricingService.getModelPricing pricingData model = none) := by
  refine ⟨?_, ?_, ?_⟩
  · intro p hp
    simp only [PricingService.getModelPricing]
    rw [hp]
  · intro hnone p hp
    simp only [PricingService.getModelPricing]
    rw [hnone, hp]
  · intro hall
    have h2 : pricingData.find?
        (fun e => decide (jsToLower e.1 =
          jsToLower (PricingCalculator.normalizeModelName model))) = none := by
      rw [List.find?_eq_none]
      intro e he
      simpa using hall e he
    have h1 : pricingData.find?
        (fun e => decide (e.1 = PricingCalculator.normalizeModelName model)) = none := by
      rw [List.find?_eq_none]
      intro e he
      have := hall e he
      simp only [decide_eq_true_eq]
      intro hk
      exact this (by rw [hk])
    simp only [PricingService.getModelPricing]
    rw [h1, h2]

/-- Witness for C6 (amended): a key differing from the normalized name only
in case is found by the fallback. -/
theorem getModelPricing_spec_witness :
    PricingService.getModelPricing [("GPT-4O", flatEntry)] "gpt-4o" = some flatEntry :=
  (getModelPricing_spec [("GPT-4O", flatEntry)] "gpt-4o").2.1 rfl ("GPT-4O", flatEntry) rfl

end Lookup

section MessageIndices

open ConversationMemoryManager

theorem sessionMessages_addMessage (db : List MessageRow) (sid role content : String) :
    sessionMessages (addMessage db sid role content) sid =
      sessionMessages db sid ++
        [{ sessionId := sid
           messageIndex := nextMessageIndex db sid
           role := role
           content := content }] := by
  simp [addMessage, sessionMessages, List.filter_append]

theorem range_intCast_maximum (n : ℕ) :
    ((List.range (n+1)).map (fun j : ℕ => (j : ℤ))).maximum = some (n : ℤ) := by
  induction n with
  | zero => decide
  | succ k ih =>
      rw [List.range_succ, List.map_append]
      simp only [List.map_cons, List.map_nil]
      rw [List.maximum_concat, ih]
      rw [max_eq_right (WithBot.coe_le_coe.mpr (by exact_mod_cast Nat.le_succ k))]
      rfl

theorem addMessages_invariant (sid : String) (cs : List String) :
    ∀ (db : List MessageRow) (k : ℕ),
      (sessionMessages db sid).map (fun m => m.messageIndex) =
        (List.range k).map (fun j : ℕ => (j : ℤ)) →
      (sessionMessages (addMessages db sid cs) sid).map (fun m => m.messageIndex) =
        (List.range (k + cs.length)).map (fun j : ℕ => (j : ℤ)) := by
  induction cs with
  | nil =>
      intro db k h
      simpa [addMessages] using h
  | cons c cs ih =>
      intro db k h
      have hnext : nextMessageIndex db sid = (k : ℤ) := by
        unfold nextMessageIndex
        rw [h]
        cases k with
        | zero => simp
        | succ j =>
            rw [range_intCast_maximum]
            show (j : ℤ) + 1 = ((j + 1 : ℕ) : ℤ)
            push_cast
            ring
      have hstep : (sessionMessages (addMessage db sid "user" c) sid).map
          (fun m => m.messageIndex) = (List.range (k+1)).map (fun j : ℕ => (j : ℤ)) := by
        rw [sessionMessages_addMessage, List.map_append, h, List.range_succ,
          List.map_append]
        simp [hnext]
      have hrec := ih (addMessage db sid "user" c) (k+1) hstep
      have harith : k + 1 + cs.length = k + (cs.length + 1) := by omega
      simpa [addMessages, harith] using hrec

/-- C3: starting from a session with no messages, a sequence of `addMessage`
calls produces message indices exactly `0, 1, …, n−1` in insertion order —
strictly increasing and pairwise distinct; each insertion takes index 0 on
an empty session and one plus the largest existing index otherwise, and
appends exactly one row with that index. -/
theorem addMessage_spec (db : List MessageRow) (sid : String) (contents : List String)
    (hempty : sessionMessages db sid = []) :
    ((sessionMessages (addMessages db sid contents) sid).map (fun m => m.messageIndex) =
      (List.range contents.length).map (fun j : ℕ => (j : ℤ))) ∧
    List.Chain' (· < ·)
      ((sessionMessages (addMessages db sid contents) sid).map (fun m => m.messageIndex)) ∧
    ((sessionMessages (addMessages db sid contents) sid).map (fun m => m.messageIndex)).Nodup ∧
    (∀ d : List MessageRow, sessionMessages d sid = [] → nextMessageIndex d sid = 0) ∧
    (∀ (d : List MessageRow) (m : ℤ),
      ((sessionMessages d sid).map (fun x => x.messageIndex)).maximum = some m →
      nextMessageIndex d sid = m + 1) ∧
    (∀ (d : List MessageRow) (role content : String),
      addMessage d sid role content =
        d ++ [{ sessionId := sid
                messageIndex := nextMessageIndex d sid
                role := role
                content := content }]) := by
  have hmain := addMessages_invariant sid contents db 0 (by simp [hempty])
  simp only [Nat.zero_add] at hmain
  have hpair : List.Pairwise (· < ·)
      ((List.range contents.length).map (fun j : ℕ => (j : ℤ))) :=
    (List.pairwise_lt_range contents.length).map _ (fun a b hab => by exact_mod_cast hab)
  refine ⟨hmain, ?_, ?_, ?_, ?_, ?_⟩
  · rw [hmain]
    exact hpair.chain'
  · rw [hmain]
    exact hpair.imp ne_of_lt
  · intro d hd
    unfold nextMessageIndex
    rw [hd]
    simp
  · intro d m hm
    unfold nextMessageIndex
    rw [hm]
    rfl
  · intro d role content
    rfl

/-- Witness for C3: three insertions into a fresh session produce indices
exactly `[0, 1, 2]`. -/
theorem addMessage_spec_witness :
    (sessionMessages (addMessages [] "s" ["a", "b", "c"]) "s").map
      (fun m => m.messageIndex) = [0, 1, 2] := by
  rw [(addMessage_spec [] "s" ["a", "b", "c"] rfl).1]
  decide

end MessageIndices

section Streaming

open DeepSeekR1Provider

theorem join_concat (l : List String) (s : String) :
    String.join (l ++ [s]) = String.join l ++ s := by
  simp [String.join, List.foldl_append]

/-- `processLine` preserves "the accumulated text is the concatenation of
the yielded chunks". -/
theorem processLine_join (parse : String → Option ParsedEvent)
    (st : StreamState) (line : String)
    (h : st.fullText = String.join st.yielded) :
    (processLine parse st line).1.fullText =
      String.join (processLine parse st line).1.yielded := by
  unfold processLine
  dsimp only
  split
  · split
    · exact h
    · split
      · exact h
      · next parsed heq =>
          cases hdc : strTruthy parsed.deltaContent <;>
            cases hu : parsed.usage <;>
              cases hfr : strTruthy parsed.finishReason <;>
                simp [hdc, hu, hfr, join_concat, h]
  · exact h

theorem processLines_join (parse : String → Option ParsedEvent)
    (lines : List String) :
    ∀ st : StreamState, st.fullText = String.join st.yielded →
      (processLines parse st lines).fullText =
        String.join (processLines parse st lines).yielded := by
  induction lines with
  | nil =>
      intro st h
      simpa [processLines] using h
  | cons l rest ih =>
      intro st h
      have h1 := processLine_join parse st l h
      simp only [processLines]
      split
      · exact h1
      · exact ih _ h1

theorem processRead_join (parse : String → Option ParsedEvent)
    (st : StreamState) (chunk : String)
    (h : st.fullText = String.join st.yielded) :
    (processRead parse st chunk).fullText =
      String.join (processRead parse st chunk).yielded := by
  unfold processRead
  exact processLines_join parse _ _ h

theorem runStream_join (parse : String → Option ParsedEvent)
    (reads : List String) :
    (runStream parse reads).fullText = String.join (runStream parse reads).yielded := by
  suffices hgen : ∀ st : StreamState, st.fullText = String.join st.yielded →
      (reads.foldl (processRead parse) st).fullText =
        String.join (reads.foldl (processRead parse) st).yielded by
    exact hgen initialStreamState rfl
  induction reads with
  | nil => intro st h; simpa using h
  | cons c cs ih =>
      intro st h
      exact ih _ (processRead_join parse st c h)

/-- C2: a line without the `data: ` prefix is ignored; a payload whose JSON
does not parse is skipped silently with no state change; `[DONE]` stops the
batch; on clean termination the tracking record is a `success` record whose
response text is the concatenation of the yielded chunks (in upstream
order); and on the spec's concrete SSE sequence — whenever `parse` agrees
with JavaScript `JSON.parse` on its two payloads — the stream yields `"He"`
then `"llo"` and the record closes with `responseText = "Hello"`. -/
theorem streamText_sse_spec (parse : String → Option ParsedEvent)
    (hHe : parse jsonHe =
      some { deltaContent := some "He", usage := none, finishReason := none })
    (hLlo : parse jsonLlo =
      some { deltaContent := some "llo", usage := none, finishReason := none }) :
    (∀ (st : StreamState) (line : String),
      jsStartsWith line "data: " = false → processLine parse st line = (st, false)) ∧
    (∀ (st : StreamState) (line : String),
      jsStartsWith line "data: " = true →
      jsTrim (line.drop 6) ≠ "[DONE]" →
      parse (jsTrim (line.drop 6)) = none →
      processLine parse st line = (st, false)) ∧
    (∀ (st : StreamState) (line : String),
      jsStartsWith line "data: " = true →
      jsTrim (line.drop 6) = "[DONE]" →
      processLine parse st line = (st, true)) ∧
    (∀ reads : List String,
      (streamCompletionRecord parse reads).status = "success" ∧
      (streamCompletionRecord parse reads).responseText =
        some (String.join (runStream parse reads).yielded)) ∧
    ((runStream parse [exampleBody]).yielded = ["He", "llo"] ∧
      (streamCompletionRecord parse [exampleBody]).responseText = some "Hello" ∧
      (streamCompletionRecord parse [exampleBody]).status = "success") := by
  have hskip : ∀ (st : StreamState) (line : String),
      jsStartsWith line "data: " = false → processLine parse st line = (st, false) := by
    intro st line hpre
    simp [processLine, hpre]
  have hbad : ∀ (st : StreamState) (line : String),
      jsStartsWith line "data: " = true →
      jsTrim (line.drop 6) ≠ "[DONE]" →
      parse (jsTrim (line.drop 6)) = none →
      processLine parse st line = (st, false) := by
    intro st line hpre hne hp
    simp [processLine, hpre, hne, hp]
  have hdone : ∀ (st : StreamState) (line : String),
      jsStartsWith line "data: " = true →
      jsTrim (line.drop 6) = "[DONE]" →
      processLine parse st line = (st, true) := by
    intro st line hpre heq
    simp [processLine, hpre, heq]
  have hrecord : ∀ reads : List String,
      (streamCompletionRecord parse reads).status = "success" ∧
      (streamCompletionRecord parse reads).responseText =
        some (String.join (runStream parse reads).yielded) := by
    intro reads
    refine ⟨rfl, ?_⟩
    have := runStream_join parse reads
    simp [streamCompletionRecord, this]
  -- the concrete scenario
  have hl1 : ∀ st : StreamState, processLine parse st ("data: " ++ jsonHe) =
      ({ st with fullText := st.fullText ++ "He", yielded := st.yielded ++ ["He"] }, false) := by
    intro st
    have hpre : jsStartsWith ("data: " ++ jsonHe) "data: " = true := by decide
    have hdata : jsTrim (("data: " ++ jsonHe).drop 6) = jsonHe := by decide
    have hne : ¬(jsonHe = "[DONE]") := by decide
    have hst : strTruthy (some "He") = true := by decide
    have hse : strTruthy (none : Option String) = false := by decide
    simp only [processLine, hpre, hdata, if_true, if_neg hne, hHe, hst, hse,
      Option.getD_some, if_false]
    simp
  have hl2 : ∀ st : StreamState, processLine parse st ("data: " ++ jsonLlo) =
      ({ st with fullText := st.fullText ++ "llo", yielded := st.yielded ++ ["llo"] }, false) := by
    intro st
    have hpre : jsStartsWith ("data: " ++ jsonLlo) "data: " = true := by decide
    have hdata : jsTrim (("data: " ++ jsonLlo).drop 6) = jsonLlo := by decide
    have hne : ¬(jsonLlo = "[DONE]") := by decide
    have hst : strTruthy (some "llo") = true := by decide
    have hse : strTruthy (none : Option String) = false := by decide
    simp only [processLine, hpre, hdata, if_true, if_neg hne, hLlo, hst, hse,
      Option.getD_some, if_false]
    simp
  have hl3 : ∀ st : StreamState, processLine parse st "data: [DONE]" = (st, true) := by
    intro st
    exact hdone st _ (by decide) (by decide)
  have hsplit : jsSplitChar '\n' (initialStreamState.buffer ++ exampleBody) =
      ["data: " ++ jsonHe, "data: " ++ jsonLlo, "data: [DONE]", ""] := by decide
  have hfinal : runStream parse [exampleBody] =
      { buffer := "", fullText := "Hello", usage := none, finishReason := "stop",
        yielded := ["He", "llo"] } := by
    have hHello : ("" ++ "He") ++ "llo" = "Hello" := by decide
    simp only [runStream, List.foldl_cons, List.foldl_nil, processRead, hsplit]
    simp only [List.getLast?, List.dropLast, Option.getD_some]
    simp only [processLines, hl1, hl2, hl3, Bool.false_eq_true, if_false, if_true]
    simp [initialStreamState, hHello]
  refine ⟨hskip, hbad, hdone, hrecord, ?_, ?_, rfl⟩
  · rw [hfinal]
  · simp [streamCompletionRecord, hfinal]

/-- Witness for C2 at a concrete `JSON.parse` stand-in that agrees with
JavaScript on the two scenario payloads. -/
theorem streamText_sse_spec_witness :
    (runStream exampleParse [exampleBody]).yielded = ["He", "llo"] ∧
    (streamCompletionRecord exampleParse [exampleBody]).responseText = some "Hello" := by
  have h := streamText_sse_spec exampleParse (by decide) (by decide)
  exact ⟨h.2.2.2.2.1, h.2.2.2.2.2.1⟩

end Streaming

section FileDedup

open ConversationMemoryManager

/-- `addFiles` with a single file whose `(sessionId, contentHash)` is absent
inserts exactly one row carrying the schema defaults
(`accessCount = 0`, `lastAccessedAt = now`). -/
theorem addFiles_singleton_insert (hash : String → String) (now : ℤ) (freshId : ℕ)
    (db : List FileRow) (sid path content : String)
    (hno : ∀ r ∈ db, ¬(r.sessionId = sid ∧ r.contentHash = hash content)) :
    addFiles hash now freshId db sid [(path, content)] =
      db ++ [{ id := freshId
               sessionId := sid
               filePath := path
               fileContent := content
               contentHash := hash content
               lastAccessedAt := now
               accessCount := 0
               isRelevant := true }] := by
  unfold addFiles
  have hfil : db.filter
      (fun r => decide (r.sessionId = sid) &&
        ([(path, content, hash content)].map (fun f => f.2.2)).contains r.contentHash) = [] := by
    rw [List.filter_eq_nil_iff]
    intro r hr
    simp only [List.map_cons, List.map_nil, List.contains_cons, List.contains_nil,
      Bool.or_false, Bool.and_eq_true, decide_eq_true_eq, beq_iff_eq, not_and]
    intro h1 h2
    exact hno r hr ⟨h1, h2⟩
  simp only [List.map_cons, List.map_nil] at hfil ⊢
  rw [hfil]
  have h01 : List.range 1 = [0] := rfl
  simp [h01]

/-- `addFiles` with a single file whose `(sessionId, contentHash)` is
carried by exactly the last row bumps that row's `accessCount` and refreshes
its `lastAccessedAt`, inserting nothing. -/
theorem addFiles_singleton_update (hash : String → String) (now : ℤ) (freshId : ℕ)
    (db : List FileRow) (sid path content : String) (row : FileRow)
    (hrow_sid : row.sessionId = sid) (hrow_hash : row.contentHash = hash content)
    (hno : ∀ r ∈ db, ¬(r.sessionId = sid ∧ r.contentHash = hash content))
    (hid : ∀ r ∈ db, r.id ≠ row.id) :
    addFiles hash now freshId (db ++ [row]) sid [(path, content)] =
      db ++ [{ row with lastAccessedAt := now, accessCount := row.accessCount + 1 }] := by
  unfold addFiles
  have hfil : (db ++ [row]).filter
      (fun r => decide (r.sessionId = sid) &&
        ([(path, content, hash content)].map (fun f => f.2.2)).contains r.contentHash) =
      [row] := by
    rw [List.filter_append]
    have h1 : db.filter
        (fun r => decide (r.sessionId = sid) &&
          ([(path, content, hash content)].map (fun f => f.2.2)).contains r.contentHash) = [] := by
      rw [List.filter_eq_nil_iff]
      intro r hr
      simp only [List.map_cons, List.map_nil, List.contains_cons, List.contains_nil,
        Bool.or_false, Bool.and_eq_true, decide_eq_true_eq, beq_iff_eq, not_and]
      intro ha hb
      exact hno r hr ⟨ha, hb⟩
    rw [h1]
    simp [hrow_sid, hrow_hash]
  simp only [List.map_cons, List.map_nil] at hfil ⊢
  rw [hfil]
  have hmap : db.map (fun r =>
      if r.id = row.id then { r with lastAccessedAt := now, accessCount := row.accessCount + 1 }
      else r) = db := by
    conv_rhs => rw [← List.map_id db]
    exact List.map_congr_left (fun r hr => by simp [hid r hr])
  simp [hrow_hash, hmap]

/-- C9: calling `addFiles(S, [f])` twice in succession (starting from a
state without `f`, with fresh ids and a monotone clock) inserts exactly one
row on the first call (`accessCount = 0`, `lastAccessedAt = t₁`), and the
second call leaves the row count unchanged while bumping that single row to
`accessCount = 1` and `lastAccessedAt = t₂ ≥ t₁`; the session's rows for
`f`'s hash stay a singleton, and pairwise uniqueness of
`(sessionId, contentHash)` is preserved. -/
theorem addFiles_spec (hash : String → String) (db : List FileRow)
    (sid path content : String) (t1 t2 : ℤ) (id1 id2 : ℕ)
    (hno : ∀ r ∈ db, ¬(r.sessionId = sid ∧ r.contentHash = hash content))
    (hid : ∀ r ∈ db, r.id ≠ id1)
    (ht : t1 ≤ t2)
    (hkeys : List.Pairwise (fun a b : FileRow =>
      a.sessionId ≠ b.sessionId ∨ a.contentHash ≠ b.contentHash) db) :
    addFiles hash t1 id1 db sid [(path, content)] =
      db ++ [{ id := id1, sessionId := sid, filePath := path, fileContent := content,
               contentHash := hash content, lastAccessedAt := t1, accessCount := 0,
               isRelevant := true }] ∧
    addFiles hash t2 id2
        (db ++ [{ id := id1, sessionId := sid, filePath := path, fileContent := content,
                  contentHash := hash content, lastAccessedAt := t1, accessCount := 0,
                  isRelevant := true }]) sid [(path, content)] =
      db ++ [{ id := id1, sessionId := sid, filePath := path, fileContent := content,
               contentHash := hash content, lastAccessedAt := t2, accessCount := 0 + 1,
               isRelevant := true }] ∧
    rowsForHash
        (db ++ [{ id := id1, sessionId := sid, filePath := path, fileContent := content,
                  contentHash := hash content, lastAccessedAt := t1, accessCount := 0,
                  isRelevant := true }]) sid (hash content) =
      [{ id := id1, sessionId := sid, filePath := path, fileContent := content,
         contentHash := hash content, lastAccessedAt := t1, accessCount := 0,
         isRelevant := true }] ∧
    rowsForHash
        (db ++ [{ id := id1, sessionId := sid, filePath := path, fileContent := content,
                  contentHash := hash content, lastAccessedAt := t2, accessCount := 0 + 1,
                  isRelevant := true }]) sid (hash content) =
      [{ id := id1, sessionId := sid, filePath := path, fileContent := content,
         contentHash := hash content, lastAccessedAt := t2, accessCount := 0 + 1,
         isRelevant := true }] ∧
    (db ++ ([{ id := id1, sessionId := sid, filePath := path, fileContent := content,
               contentHash := hash content, lastAccessedAt := t2, accessCount := 0 + 1,
               isRelevant := true }] : List FileRow)).length =
      (db ++ ([{ id := id1, sessionId := sid, filePath := path, fileContent := content,
                 contentHash := hash content, lastAccessedAt := t1, accessCount := 0,
                 isRelevant := true }] : List FileRow)).length ∧
    t1 ≤ t2 ∧
    List.Pairwise (fun a b : FileRow =>
      a.sessionId ≠ b.sessionId ∨ a.contentHash ≠ b.contentHash)
      (db ++ [{ id := id1, sessionId := sid, filePath := path, fileContent := content,
                contentHash := hash content, lastAccessedAt := t2, accessCount := 0 + 1,
                isRelevant := true }]) := by
  have hfil2 : db.filter
      (fun r => decide (r.sessionId = sid) && decide (r.contentHash = hash content)) = [] := by
    rw [List.filter_eq_nil_iff]
    intro r hr
    simp only [Bool.and_eq_true, decide_eq_true_eq, not_and]
    intro h1 h2
    exact hno r hr ⟨h1, h2⟩
  refine ⟨addFiles_singleton_insert hash t1 id1 db sid path content hno, ?_, ?_, ?_, ?_, ht, ?_⟩
  · exact addFiles_singleton_update hash t2 id2 db sid path content
      { id := id1, sessionId := sid, filePath := path, fileContent := content,
        contentHash := hash content, lastAccessedAt := t1, accessCount := 0,
        isRelevant := true }
      rfl rfl hno (fun r hr => hid r hr)
  · unfold rowsForHash
    rw [List.filter_append, hfil2]
    simp
  · unfold rowsForHash
    rw [List.filter_append, hfil2]
    simp
  · simp
  · rw [List.pairwise_append]
    refine ⟨hkeys, by simp, ?_⟩
    intro a ha b hb
    simp only [List.mem_singleton] at hb
    subst hb
    by_cases hsid : a.sessionId = sid
    · right
      intro hh
      exact hno a ha ⟨hsid, by simpa using hh⟩
    · left
      simpa using hsid

/-- Witness for C9: two identical `addFiles` calls on a fresh session leave
one row with `accessCount = 1` and the second call's timestamp. -/
theorem addFiles_spec_witness :
    addFiles (fun s => s) 5 1
        (addFiles (fun s => s) 0 0 [] "s" [("/x.ts", "HELLO")]) "s"
        [("/x.ts", "HELLO")] =
      [{ id := 0, sessionId := "s", filePath := "/x.ts", fileContent := "HELLO",
         contentHash := "HELLO", lastAccessedAt := 5, accessCount := 0 + 1,
         isRelevant := true }] := by
  obtain ⟨h1, h2, -, -, -, -, -⟩ :=
    addFiles_spec (fun s => s) [] "s" "/x.ts" "HELLO" 0 5 0 1
      (by simp) (by simp) (by norm_num) (by simp)
  rw [h1, h2]
  simp

end FileDedup

end UltraMCP
